import Mathlib

/-!
Verification of the robot-vis differential-drive simulation engine.

The definitions below are a shallow embedding of the Go sources:
  * `sim_engine/internal/models` (data model),
  * `sim_engine/internal/simulation/engine.go` (the kinematic engine),
  * the websocket hub's `Run` loop (broadcast fan-out).
Machine floats are modelled as real numbers; the engine's random source
(`rand.NormFloat64`) is modelled by explicit noise parameters threaded
through `step`; wall-clock time (`time.Now()`) is modelled by an explicit
`now` parameter.
-/

namespace RobotVis

/-- models.WheelState: angular velocity (rad/s) and cumulative rotation (rad). -/
structure WheelState where
  velocity : ℝ
  rotation : ℝ


/-- models.RobotState: pose, velocities, wheel states and a timestamp. -/
structure RobotState where
  x : ℝ
  y : ℝ
  theta : ℝ
  linearVel : ℝ
  angularVel : ℝ
  leftWheel : WheelState
  rightWheel : WheelState
  timestamp : ℝ


/-- models.OdometryEstimate: same shape as RobotState minus the timestamp. -/
structure OdometryEstimate where
  x : ℝ
  y : ℝ
  theta : ℝ
  linearVel : ℝ
  angularVel : ℝ
  leftWheel : WheelState
  rightWheel : WheelState


/-- models.RobotConstants: the robot's physical parameters. -/
structure RobotConstants where
  wheelBase : ℝ
  wheelRadius : ℝ
  maxSpeed : ℝ
  maxAccel : ℝ
  slippageAmount : ℝ


/-- models.WheelCommand: target wheel angular velocities. -/
structure WheelCommand where
  leftVelocity : ℝ
  rightVelocity : ℝ


/-- models.DefaultRobotConstants. -/
def DefaultRobotConstants : RobotConstants :=
  { wheelBase := 0.3, wheelRadius := 0.05, maxSpeed := 2.0, maxAccel := 1.0
    slippageAmount := 0.1 }

/-- simulation.Engine: the simulation engine's state.  The Go struct's
`rand` field (the random source) is modelled by noise arguments to `step`. -/
structure Engine where
  groundTruth : RobotState
  odometry : OdometryEstimate
  constants : RobotConstants
  lastUpdate : ℝ
  running : Bool
  wheelCommand : WheelCommand


/-- The all-zero RobotState stamped with `now` (used by NewEngine and Reset). -/
def zeroRobotState (now : ℝ) : RobotState :=
  { x := 0, y := 0, theta := 0, linearVel := 0, angularVel := 0
    leftWheel := { velocity := 0, rotation := 0 }
    rightWheel := { velocity := 0, rotation := 0 }
    timestamp := now }

/-- The all-zero OdometryEstimate (used by NewEngine and Reset). -/
def zeroOdometry : OdometryEstimate :=
  { x := 0, y := 0, theta := 0, linearVel := 0, angularVel := 0
    leftWheel := { velocity := 0, rotation := 0 }
    rightWheel := { velocity := 0, rotation := 0 } }

/-- simulation.NewEngine (engine.go:25-55). -/
def NewEngine (now : ℝ) : Engine :=
  { groundTruth := zeroRobotState now
    odometry := zeroOdometry
    constants := DefaultRobotConstants
    lastUpdate := now
    running := false
    wheelCommand := { leftVelocity := 0, rightVelocity := 0 } }

/-- Engine.SetWheelCommand (engine.go:58-60). -/
def SetWheelCommand (cmd : WheelCommand) (e : Engine) : Engine :=
  { e with wheelCommand := cmd }

/-- Engine.UpdateConstants (engine.go:63-65). -/
def UpdateConstants (c : RobotConstants) (e : Engine) : Engine :=
  { e with constants := c }

/-- Engine.Reset (engine.go:68-91): zeroes ground truth, odometry and the
wheel command, restamps timestamps with `now`, leaves constants alone. -/
def Reset (now : ℝ) (e : Engine) : Engine :=
  { e with groundTruth := zeroRobotState now
           odometry := zeroOdometry
           lastUpdate := now
           wheelCommand := { leftVelocity := 0, rightVelocity := 0 } }

/-- normalizeAngle (engine.go:277-286).  The Go loop repeatedly adds 2π while
θ < 0 and subtracts 2π while θ ≥ 2π; over exact reals its result is the
unique representative of θ modulo 2π lying in [0, 2π), namely
θ − 2π·⌊θ/(2π)⌋.  The lemmas `normalizeAngle_eq_self` and
`normalizeAngle_add_two_pi` below check this against the loop's behaviour. -/
noncomputable def normalizeAngle (theta : ℝ) : ℝ :=
  theta - 2 * Real.pi * ⌊theta / (2 * Real.pi)⌋

/-- Engine.updateWheelVelocities (engine.go:152-181): move each ground-truth
wheel velocity toward its commanded value, clamped by
`maxAccel / wheelRadius * dt` per step; snap to the target when within it. -/
noncomputable def updateWheelVelocities (c : RobotConstants) (cmd : WheelCommand) (dt : ℝ)
    (gt : RobotState) : RobotState :=
  let maxAngularAccel := c.maxAccel / c.wheelRadius
  let maxDeltaVel := maxAngularAccel * dt
  let leftDiff := cmd.leftVelocity - gt.leftWheel.velocity
  let newLeft :=
    if |leftDiff| > maxDeltaVel then
      (if leftDiff > 0 then gt.leftWheel.velocity + maxDeltaVel
       else gt.leftWheel.velocity - maxDeltaVel)
    else cmd.leftVelocity
  let rightDiff := cmd.rightVelocity - gt.rightWheel.velocity
  let newRight :=
    if |rightDiff| > maxDeltaVel then
      (if rightDiff > 0 then gt.rightWheel.velocity + maxDeltaVel
       else gt.rightWheel.velocity - maxDeltaVel)
    else cmd.rightVelocity
  { gt with leftWheel := { gt.leftWheel with velocity := newLeft }
            rightWheel := { gt.rightWheel with velocity := newRight } }

/-- Engine.wheelVelocitiesToRobotVelocities (engine.go:184-206):
differential-drive kinematics, `v = R/2·(ωL + ωR)`, `ω = R/L·(ωL − ωR)`,
then each result clipped to [−maxSpeed, maxSpeed] by two if tests. -/
noncomputable def wheelVelocitiesToRobotVelocities (c : RobotConstants)
    (leftWheelVel rightWheelVel : ℝ) : ℝ × ℝ :=
  let linearVel := (c.wheelRadius / 2) * (leftWheelVel + rightWheelVel)
  let angularVel := (c.wheelRadius / c.wheelBase) * (leftWheelVel - rightWheelVel)
  let linearClipped :=
    if linearVel > c.maxSpeed then c.maxSpeed
    else if linearVel < -c.maxSpeed then -c.maxSpeed
    else linearVel
  let angularClipped :=
    if angularVel > c.maxSpeed then c.maxSpeed
    else if angularVel < -c.maxSpeed then -c.maxSpeed
    else angularVel
  (linearClipped, angularClipped)

/-- Engine.applySlippage (engine.go:209-217): multiplicative noise on both
velocities; `g1`, `g2` are the two `rand.NormFloat64()` draws. -/
def applySlippage (c : RobotConstants) (g1 g2 linearVel angularVel : ℝ) : ℝ × ℝ :=
  let linearNoise := (g1 - 0.5) * 0.1
  let angularNoise := (g2 - 0.5) * 0.05
  (linearVel * (1 - (c.slippageAmount + linearNoise) * 0.3),
   angularVel * (1 - (c.slippageAmount + angularNoise) * 0.03))

/-- Engine.updatePosition (engine.go:220-237): Euler/arc pose integration,
straight-line branch for |angularVel| < 1e-6, then heading normalization. -/
noncomputable def updatePosition (linearVel angularVel dt : ℝ)
    (state : RobotState) : RobotState :=
  let s :=
    if |angularVel| < 1e-6 then
      { state with x := state.x + linearVel * Real.cos state.theta * dt
                   y := state.y + linearVel * Real.sin state.theta * dt }
    else
      let radius := linearVel / angularVel
      let dTheta := angularVel * dt
      { state with
          x := state.x + radius * (Real.sin (state.theta + dTheta) - Real.sin state.theta)
          y := state.y + radius * (-Real.cos (state.theta + dTheta) + Real.cos state.theta)
          theta := state.theta + dTheta }
  { s with theta := normalizeAngle s.theta }

/-- Engine.updateGroundTruth (engine.go:137-149): slip the velocities,
record them, integrate the pose, advance the wheel rotation counters. -/
noncomputable def updateGroundTruth (c : RobotConstants)
    (linearVel angularVel dt g1 g2 : ℝ) (gt : RobotState) : RobotState :=
  let slipped := applySlippage c g1 g2 linearVel angularVel
  let s1 := { gt with linearVel := slipped.1, angularVel := slipped.2 }
  let s2 := updatePosition slipped.1 slipped.2 dt s1
  { s2 with
      leftWheel := { s2.leftWheel with
                       rotation := s2.leftWheel.rotation + s2.leftWheel.velocity * dt }
      rightWheel := { s2.rightWheel with
                       rotation := s2.rightWheel.rotation + s2.rightWheel.velocity * dt } }

/-- Engine.updateOdometry (engine.go:240-274): copy the ground-truth wheel
velocities, advance odometry rotation counters, recompute the unslipped
velocities, integrate the odometry pose, normalize its heading. -/
noncomputable def updateOdometry (c : RobotConstants)
    (gtLeftVel gtRightVel dt : ℝ) (od : OdometryEstimate) : OdometryEstimate :=
  let o1 := { od with
                leftWheel := { velocity := gtLeftVel
                               rotation := od.leftWheel.rotation + gtLeftVel * dt }
                rightWheel := { velocity := gtRightVel
                                rotation := od.rightWheel.rotation + gtRightVel * dt } }
  let vels := wheelVelocitiesToRobotVelocities c o1.leftWheel.velocity o1.rightWheel.velocity
  let linearVel := vels.1
  let angularVel := vels.2
  let o2 := { o1 with linearVel := linearVel, angularVel := angularVel }
  let o3 :=
    if |angularVel| < 1e-6 then
      { o2 with x := o2.x + linearVel * Real.cos o2.theta * dt
                y := o2.y + linearVel * Real.sin o2.theta * dt }
    else
      let radius := linearVel / angularVel
      let dTheta := angularVel * dt
      { o2 with
          x := o2.x + radius * (Real.sin (o2.theta + dTheta) - Real.sin o2.theta)
          y := o2.y + radius * (-Real.cos (o2.theta + dTheta) + Real.cos o2.theta)
          theta := o2.theta + dTheta }
  { o3 with theta := normalizeAngle o3.theta }

/-- The ground-truth branch of Step as a transformer of the whole engine. -/
noncomputable def updateGroundTruthE (linearVel angularVel dt g1 g2 : ℝ)
    (e : Engine) : Engine :=
  { e with groundTruth :=
      updateGroundTruth e.constants linearVel angularVel dt g1 g2 e.groundTruth }

/-- The odometry branch of Step as a transformer of the whole engine; it
reads the ground-truth wheel velocities, as the Go code does. -/
noncomputable def updateOdometryE (dt : ℝ) (e : Engine) : Engine :=
  { e with odometry :=
      (updateOdometry e.constants e.groundTruth.leftWheel.velocity
        e.groundTruth.rightWheel.velocity dt e.odometry) }

/-- Engine.Step (engine.go:94-134): guard on dt, integrate wheel velocities,
convert to robot velocities, run the ground-truth and odometry branches
(forked and joined in Go; their fields are disjoint, see
`c9_branches_commute`), then stamp the completion time `now`. -/
noncomputable def step (dt now g1 g2 : ℝ) (e : Engine) : Engine :=
  if dt ≤ 0 then e
  else
    let e1 := { e with groundTruth :=
                  updateWheelVelocities e.constants e.wheelCommand dt e.groundTruth }
    let vels := wheelVelocitiesToRobotVelocities e1.constants
                  e1.groundTruth.leftWheel.velocity e1.groundTruth.rightWheel.velocity
    let e2 := updateOdometryE dt (updateGroundTruthE vels.1 vels.2 dt g1 g2 e1)
    { e2 with
        groundTruth := { e2.groundTruth with timestamp := now }
        lastUpdate := now }

/-! ### Websocket hub (broadcast fan-out), from the hub's `Run` loop. -/

/-- A registered websocket client: an identifier plus its bounded outbound
channel, modelled as a capacity and the list of undelivered messages. -/
structure Client where
  id : ℕ
  cap : ℕ
  buf : List ℕ
deriving DecidableEq

/-- The `broadcast` case of Hub.Run: for every registered client a
non-blocking channel send is attempted (`select` with a `default` branch).
If the client's bounded buffer has space the message is enqueued; otherwise
the `default` branch runs `close(client.send); delete(h.clients, client)`,
removing the client from the set. -/
def broadcastCase (m : ℕ) (clients : List Client) : List Client :=
  clients.filterMap fun cl =>
    if cl.buf.length < cl.cap then some { cl with buf := cl.buf ++ [m] } else none

/-- The `unregister` case of Hub.Run: if the client is registered it is
removed from the set and its channel closed. -/
def unregisterCase (cid : ℕ) (clients : List Client) : List Client :=
  clients.filter fun cl => cl.id ≠ cid

/-! ### Properties of normalizeAngle.

The first two lemmas check the floor-based definition against the Go loop:
it is the identity on [0, 2π) (the loop body never runs) and is invariant
under shifting by 2π (one extra loop iteration). -/

lemma normalizeAngle_eq_self (theta : ℝ) (h0 : 0 ≤ theta) (h1 : theta < 2 * Real.pi) :
    normalizeAngle theta = theta := by
  have h : (0 : ℝ) < 2 * Real.pi := by positivity
  have : ⌊theta / (2 * Real.pi)⌋ = 0 := by
    rw [Int.floor_eq_zero_iff]
    constructor
    · exact div_nonneg h0 h.le
    · rw [div_lt_one h]
      simpa using h1
  simp [normalizeAngle, this]

lemma normalizeAngle_add_two_pi (theta : ℝ) :
    normalizeAngle (theta + 2 * Real.pi) = normalizeAngle theta := by
  have h : (2 : ℝ) * Real.pi ≠ 0 := by positivity
  have hdiv : (theta + 2 * Real.pi) / (2 * Real.pi) = theta / (2 * Real.pi) + 1 := by
    field_simp
  rw [normalizeAngle, normalizeAngle, hdiv, Int.floor_add_one]
  push_cast
  ring

lemma normalizeAngle_nonneg (theta : ℝ) : 0 ≤ normalizeAngle theta := by
  rw [normalizeAngle, sub_nonneg]
  have h : (0 : ℝ) < 2 * Real.pi := by positivity
  calc 2 * Real.pi * ⌊theta / (2 * Real.pi)⌋
      ≤ 2 * Real.pi * (theta / (2 * Real.pi)) :=
        mul_le_mul_of_nonneg_left (Int.floor_le _) h.le
    _ = theta := by field_simp

lemma normalizeAngle_lt_two_pi (theta : ℝ) : normalizeAngle theta < 2 * Real.pi := by
  rw [normalizeAngle, sub_lt_iff_lt_add]
  have h : (0 : ℝ) < 2 * Real.pi := by positivity
  have hlt : theta / (2 * Real.pi) < ⌊theta / (2 * Real.pi)⌋ + 1 := Int.lt_floor_add_one _
  calc theta = 2 * Real.pi * (theta / (2 * Real.pi)) := by field_simp
    _ < 2 * Real.pi * (⌊theta / (2 * Real.pi)⌋ + 1) := by
        exact mul_lt_mul_of_pos_left hlt h
    _ = 2 * Real.pi + 2 * Real.pi * ⌊theta / (2 * Real.pi)⌋ := by ring

lemma normalizeAngle_zero : normalizeAngle 0 = 0 := by
  simp [normalizeAngle]

/-! ### Field-preservation lemmas for the step pipeline. -/

lemma updatePosition_leftWheel (linearVel angularVel dt : ℝ) (s : RobotState) :
    (updatePosition linearVel angularVel dt s).leftWheel = s.leftWheel := by
  unfold updatePosition
  split <;> rfl

lemma updatePosition_rightWheel (linearVel angularVel dt : ℝ) (s : RobotState) :
    (updatePosition linearVel angularVel dt s).rightWheel = s.rightWheel := by
  unfold updatePosition
  split <;> rfl

lemma updatePosition_linearVel (linearVel angularVel dt : ℝ) (s : RobotState) :
    (updatePosition linearVel angularVel dt s).linearVel = s.linearVel := by
  unfold updatePosition
  split <;> rfl

lemma updatePosition_angularVel (linearVel angularVel dt : ℝ) (s : RobotState) :
    (updatePosition linearVel angularVel dt s).angularVel = s.angularVel := by
  unfold updatePosition
  split <;> rfl

lemma updateGroundTruth_leftWheel_velocity (c : RobotConstants)
    (linearVel angularVel dt g1 g2 : ℝ) (gt : RobotState) :
    (updateGroundTruth c linearVel angularVel dt g1 g2 gt).leftWheel.velocity =
      gt.leftWheel.velocity := by
  unfold updateGroundTruth
  simp [updatePosition_leftWheel]

lemma updateGroundTruth_rightWheel_velocity (c : RobotConstants)
    (linearVel angularVel dt g1 g2 : ℝ) (gt : RobotState) :
    (updateGroundTruth c linearVel angularVel dt g1 g2 gt).rightWheel.velocity =
      gt.rightWheel.velocity := by
  unfold updateGroundTruth
  simp [updatePosition_rightWheel]

lemma updateOdometry_leftWheel_velocity (c : RobotConstants)
    (gtLeftVel gtRightVel dt : ℝ) (od : OdometryEstimate) :
    (updateOdometry c gtLeftVel gtRightVel dt od).leftWheel.velocity = gtLeftVel := by
  unfold updateOdometry
  dsimp only
  split <;> rfl

lemma updateOdometry_rightWheel_velocity (c : RobotConstants)
    (gtLeftVel gtRightVel dt : ℝ) (od : OdometryEstimate) :
    (updateOdometry c gtLeftVel gtRightVel dt od).rightWheel.velocity = gtRightVel := by
  unfold updateOdometry
  dsimp only
  split <;> rfl

/-! ### Claim theorems (first batch). -/

/-- C4: for every engine state and every dt ≤ 0, `Step(dt)` returns before
touching any field, so the engine is unchanged bit for bit. -/
theorem c4_step_nonpositive_dt_noop (dt now g1 g2 : ℝ) (e : Engine) (h : dt ≤ 0) :
    step dt now g1 g2 e = e := by
  unfold step
  rw [if_pos h]

/-- Witness for C4 at dt = 0. -/
theorem c4_step_nonpositive_dt_noop_witness :
    step 0 5 1 2 (NewEngine 3) = NewEngine 3 :=
  c4_step_nonpositive_dt_noop 0 5 1 2 (NewEngine 3) le_rfl

/-- C6: `Reset` yields the all-zero ground truth, odometry and wheel command
regardless of prior history (any two engines reset to the same values), and
preserves the constants. -/
theorem c6_reset_zeroes_state (e e2 : Engine) (now : ℝ) :
    (Reset now e).groundTruth = zeroRobotState now ∧
    (Reset now e).odometry = zeroOdometry ∧
    (Reset now e).wheelCommand = { leftVelocity := 0, rightVelocity := 0 } ∧
    (Reset now e).constants = e.constants ∧
    (Reset now e).groundTruth = (Reset now e2).groundTruth ∧
    (Reset now e).odometry = (Reset now e2).odometry ∧
    (Reset now e).wheelCommand = (Reset now e2).wheelCommand :=
  ⟨rfl, rfl, rfl, rfl, rfl, rfl, rfl⟩

/-- C9: the ground-truth branch and the odometry branch of Step mutate
disjoint fields (the odometry branch reads only the already-finalized wheel
velocities, which the ground-truth branch does not modify), so running them
sequentially in either order yields the same engine state. -/
theorem c9_branches_commute (linearVel angularVel dt g1 g2 : ℝ) (e : Engine) :
    updateOdometryE dt (updateGroundTruthE linearVel angularVel dt g1 g2 e) =
      updateGroundTruthE linearVel angularVel dt g1 g2 (updateOdometryE dt e) := by
  unfold updateOdometryE updateGroundTruthE
  simp [updateGroundTruth_leftWheel_velocity, updateGroundTruth_rightWheel_velocity]

/-- C10: after any step with dt > 0 the odometry wheel velocities equal the
ground-truth wheel velocities: the odometry branch copies them verbatim and
slippage never touches the wheel-velocity fields. -/
theorem c10_odometry_copies_wheel_velocities (dt now g1 g2 : ℝ) (e : Engine)
    (h : 0 < dt) :
    (step dt now g1 g2 e).odometry.leftWheel.velocity =
        (step dt now g1 g2 e).groundTruth.leftWheel.velocity ∧
      (step dt now g1 g2 e).odometry.rightWheel.velocity =
        (step dt now g1 g2 e).groundTruth.rightWheel.velocity := by
  unfold step
  rw [if_neg (not_le.mpr h)]
  constructor <;>
    simp [updateOdometryE, updateGroundTruthE,
      updateOdometry_leftWheel_velocity, updateOdometry_rightWheel_velocity,
      updateGroundTruth_leftWheel_velocity, updateGroundTruth_rightWheel_velocity]

lemma updatePosition_theta_normalized (linearVel angularVel dt : ℝ) (s : RobotState) :
    ∃ t, (updatePosition linearVel angularVel dt s).theta = normalizeAngle t := by
  unfold updatePosition
  dsimp only
  split
  · exact ⟨s.theta, rfl⟩
  · exact ⟨s.theta + angularVel * dt, rfl⟩

lemma updateGroundTruth_theta_normalized (c : RobotConstants)
    (linearVel angularVel dt g1 g2 : ℝ) (gt : RobotState) :
    ∃ t, (updateGroundTruth c linearVel angularVel dt g1 g2 gt).theta =
      normalizeAngle t := by
  unfold updateGroundTruth
  dsimp only
  exact updatePosition_theta_normalized _ _ _ _

lemma updateOdometry_theta_normalized (c : RobotConstants)
    (gtLeftVel gtRightVel dt : ℝ) (od : OdometryEstimate) :
    ∃ t, (updateOdometry c gtLeftVel gtRightVel dt od).theta = normalizeAngle t := by
  unfold updateOdometry
  dsimp only
  split
  · exact ⟨od.theta, rfl⟩
  · exact ⟨od.theta + _ * dt, rfl⟩

/-- C5: after every step with positive dt, both headings lie in [0, 2π);
every branch of the pose update ends in `normalizeAngle`, whose image is
[0, 2π).  Together with `theta = 0` initially and after `Reset`, this holds
for every reachable state. -/
theorem c5_heading_in_range (dt now g1 g2 : ℝ) (e : Engine) (h : 0 < dt) :
    (0 ≤ (step dt now g1 g2 e).groundTruth.theta ∧
        (step dt now g1 g2 e).groundTruth.theta < 2 * Real.pi) ∧
      (0 ≤ (step dt now g1 g2 e).odometry.theta ∧
        (step dt now g1 g2 e).odometry.theta < 2 * Real.pi) := by
  have hgt : ∃ t, (step dt now g1 g2 e).groundTruth.theta = normalizeAngle t := by
    unfold step
    rw [if_neg (not_le.mpr h)]
    dsimp only [updateOdometryE, updateGroundTruthE]
    exact updateGroundTruth_theta_normalized _ _ _ _ _ _ _
  have hod : ∃ t, (step dt now g1 g2 e).odometry.theta = normalizeAngle t := by
    unfold step
    rw [if_neg (not_le.mpr h)]
    dsimp only [updateOdometryE, updateGroundTruthE]
    exact updateOdometry_theta_normalized _ _ _ _ _
  obtain ⟨t1, h1⟩ := hgt
  obtain ⟨t2, h2⟩ := hod
  rw [h1, h2]
  exact ⟨⟨normalizeAngle_nonneg t1, normalizeAngle_lt_two_pi t1⟩,
    ⟨normalizeAngle_nonneg t2, normalizeAngle_lt_two_pi t2⟩⟩

/-- Witness for C5 at dt = 1 with a concrete engine. -/
theorem c5_heading_in_range_witness :
    (0 ≤ (step 1 0 2 3 (NewEngine 0)).groundTruth.theta ∧
        (step 1 0 2 3 (NewEngine 0)).groundTruth.theta < 2 * Real.pi) ∧
      (0 ≤ (step 1 0 2 3 (NewEngine 0)).odometry.theta ∧
        (step 1 0 2 3 (NewEngine 0)).odometry.theta < 2 * Real.pi) :=
  c5_heading_in_range 1 0 2 3 (NewEngine 0) one_pos

/-- States that v2 is one acceleration-limited update of v toward the
target c with per-step bound delta: the move is at most delta, never
increases the gap, snaps to the target when the gap is within delta, and
otherwise closes the gap by exactly delta. -/
def movesToward (v v2 c delta : ℝ) : Prop :=
  |v2 - v| ≤ delta ∧ |c - v2| ≤ |c - v| ∧
    (|c - v| ≤ delta → v2 = c) ∧ (delta < |c - v| → |c - v2| = |c - v| - delta)

lemma wheelStep_movesToward (v c delta : ℝ) (hd : 0 ≤ delta) :
    movesToward v
      (if |c - v| > delta then (if c - v > 0 then v + delta else v - delta) else c)
      c delta := by
  rcases le_or_lt (|c - v|) delta with hle | hlt
  · rw [if_neg (not_lt.mpr hle)]
    exact ⟨hle, by simp, fun _ => rfl, fun hcon => absurd hcon (not_lt.mpr hle)⟩
  · rw [if_pos hlt]
    by_cases hpos : c - v > 0
    · rw [if_pos hpos]
      have habs : |c - v| = c - v := abs_of_pos hpos
      have hgap : 0 ≤ c - v - delta := by
        have := habs ▸ hlt.le
        linarith
      refine ⟨by rw [add_sub_cancel_left, abs_of_nonneg hd], ?_, ?_, ?_⟩
      · rw [habs, show c - (v + delta) = c - v - delta by ring, abs_of_nonneg hgap]
        linarith
      · intro hcon
        exact absurd hcon (not_le.mpr hlt)
      · intro _
        rw [habs, show c - (v + delta) = c - v - delta by ring, abs_of_nonneg hgap]
    · rw [if_neg hpos]
      have hneg : c - v < 0 := by
        rcases lt_or_eq_of_le (not_lt.mp hpos) with hlt2 | heq
        · exact hlt2
        · rw [heq] at hlt
          simp at hlt
          linarith
      have habs : |c - v| = -(c - v) := abs_of_neg hneg
      have hgap : c - v + delta ≤ 0 := by
        have := habs ▸ hlt.le
        linarith
      refine ⟨by rw [sub_sub_cancel_left, abs_neg, abs_of_nonneg hd], ?_, ?_, ?_⟩
      · rw [habs, show c - (v - delta) = c - v + delta by ring, abs_of_nonpos hgap]
        linarith
      · intro hcon
        exact absurd hcon (not_le.mpr hlt)
      · intro _
        rw [habs, show c - (v - delta) = c - v + delta by ring, abs_of_nonpos hgap]
        ring

lemma step_groundTruth_leftWheel_velocity (dt now g1 g2 : ℝ) (e : Engine)
    (h : 0 < dt) :
    (step dt now g1 g2 e).groundTruth.leftWheel.velocity =
      (updateWheelVelocities e.constants e.wheelCommand dt e.groundTruth).leftWheel.velocity := by
  unfold step
  rw [if_neg (not_le.mpr h)]
  dsimp only [updateOdometryE, updateGroundTruthE]
  rw [updateGroundTruth_leftWheel_velocity]

lemma step_groundTruth_rightWheel_velocity (dt now g1 g2 : ℝ) (e : Engine)
    (h : 0 < dt) :
    (step dt now g1 g2 e).groundTruth.rightWheel.velocity =
      (updateWheelVelocities e.constants e.wheelCommand dt e.groundTruth).rightWheel.velocity := by
  unfold step
  rw [if_neg (not_le.mpr h)]
  dsimp only [updateOdometryE, updateGroundTruthE]
  rw [updateGroundTruth_rightWheel_velocity]

lemma updateWheelVelocities_left (c : RobotConstants) (cmd : WheelCommand)
    (dt : ℝ) (gt : RobotState) :
    (updateWheelVelocities c cmd dt gt).leftWheel.velocity =
      (if |cmd.leftVelocity - gt.leftWheel.velocity| > c.maxAccel / c.wheelRadius * dt
       then (if cmd.leftVelocity - gt.leftWheel.velocity > 0
             then gt.leftWheel.velocity + c.maxAccel / c.wheelRadius * dt
             else gt.leftWheel.velocity - c.maxAccel / c.wheelRadius * dt)
       else cmd.leftVelocity) := rfl

lemma updateWheelVelocities_right (c : RobotConstants) (cmd : WheelCommand)
    (dt : ℝ) (gt : RobotState) :
    (updateWheelVelocities c cmd dt gt).rightWheel.velocity =
      (if |cmd.rightVelocity - gt.rightWheel.velocity| > c.maxAccel / c.wheelRadius * dt
       then (if cmd.rightVelocity - gt.rightWheel.velocity > 0
             then gt.rightWheel.velocity + c.maxAccel / c.wheelRadius * dt
             else gt.rightWheel.velocity - c.maxAccel / c.wheelRadius * dt)
       else cmd.rightVelocity) := rfl

/-- C3: each call to step moves each wheel velocity toward its commanded
value by at most maxAccel/wheelRadius·dt, without overshoot, snapping
exactly to the command once the remaining gap is within that per-step
delta (and otherwise shrinking the gap by exactly the delta). -/
theorem c3_acceleration_limited_convergence (dt now g1 g2 : ℝ) (e : Engine)
    (hdt : 0 < dt) (hacc : 0 ≤ e.constants.maxAccel)
    (hwr : 0 < e.constants.wheelRadius) :
    movesToward e.groundTruth.leftWheel.velocity
        ((step dt now g1 g2 e).groundTruth.leftWheel.velocity)
        e.wheelCommand.leftVelocity
        (e.constants.maxAccel / e.constants.wheelRadius * dt) ∧
      movesToward e.groundTruth.rightWheel.velocity
        ((step dt now g1 g2 e).groundTruth.rightWheel.velocity)
        e.wheelCommand.rightVelocity
        (e.constants.maxAccel / e.constants.wheelRadius * dt) := by
  have hd : 0 ≤ e.constants.maxAccel / e.constants.wheelRadius * dt :=
    mul_nonneg (div_nonneg hacc hwr.le) hdt.le
  constructor
  · rw [step_groundTruth_leftWheel_velocity dt now g1 g2 e hdt,
      updateWheelVelocities_left]
    exact wheelStep_movesToward _ _ _ hd
  · rw [step_groundTruth_rightWheel_velocity dt now g1 g2 e hdt,
      updateWheelVelocities_right]
    exact wheelStep_movesToward _ _ _ hd

/-- Witness for C3 at the default engine and dt = 1. -/
theorem c3_acceleration_limited_convergence_witness :
    movesToward (NewEngine 0).groundTruth.leftWheel.velocity
        ((step 1 0 0 0 (NewEngine 0)).groundTruth.leftWheel.velocity)
        (NewEngine 0).wheelCommand.leftVelocity
        ((NewEngine 0).constants.maxAccel / (NewEngine 0).constants.wheelRadius * 1) ∧
      movesToward (NewEngine 0).groundTruth.rightWheel.velocity
        ((step 1 0 0 0 (NewEngine 0)).groundTruth.rightWheel.velocity)
        (NewEngine 0).wheelCommand.rightVelocity
        ((NewEngine 0).constants.maxAccel / (NewEngine 0).constants.wheelRadius * 1) :=
  c3_acceleration_limited_convergence 1 0 0 0 (NewEngine 0) one_pos
    (by norm_num [NewEngine, DefaultRobotConstants])
    (by norm_num [NewEngine, DefaultRobotConstants])

/-- Witness for C10 at a concrete engine and dt = 1. -/
theorem c10_odometry_copies_wheel_velocities_witness :
    (step 1 0 2 3 (NewEngine 0)).odometry.leftWheel.velocity =
        (step 1 0 2 3 (NewEngine 0)).groundTruth.leftWheel.velocity ∧
      (step 1 0 2 3 (NewEngine 0)).odometry.rightWheel.velocity =
        (step 1 0 2 3 (NewEngine 0)).groundTruth.rightWheel.velocity :=
  c10_odometry_copies_wheel_velocities 1 0 2 3 (NewEngine 0) one_pos

/-! ### C2: kinematic conversion. -/

/-- Constants with maxSpeed large enough that no clipping occurs, used to
exhibit the sign convention of the implemented angular-velocity formula. -/
def c2consts : RobotConstants :=
  { wheelBase := 0.3, wheelRadius := 0.05, maxSpeed := 10, maxAccel := 1
    slippageAmount := 0 }

/-- C2 counterexample: for left = 5, right = −5 the code computes
`R/L·(left − right) = +5/3`, not the claimed `R/L·(right − left) = −5/3`. -/
theorem c2_counterexample :
    (wheelVelocitiesToRobotVelocities c2consts 5 (-5)).2 = 5 / 3 ∧
      (c2consts.wheelRadius / c2consts.wheelBase) * ((-5 : ℝ) - 5) = -(5 / 3) ∧
      ((5 : ℝ) / 3) ≠ -(5 / 3) := by
  refine ⟨?_, by norm_num [c2consts], by norm_num⟩
  norm_num [wheelVelocitiesToRobotVelocities, c2consts]

lemma clip_eq_max_min (x m : ℝ) (hm : 0 ≤ m) :
    (if x > m then m else if x < -m then -m else x) = max (-m) (min m x) := by
  have hmm : -m ≤ m := by linarith
  split_ifs with h1 h2
  · rw [min_eq_left h1.le, max_eq_right hmm]
  · rw [min_eq_right (by linarith : x ≤ m), max_eq_left h2.le]
  · rw [min_eq_right (not_lt.mp h1), max_eq_right (not_lt.mp h2)]

/-- C2 amended: `linearVel = R/2·(left + right)` and
`angularVel = R/wheelBase·(left − right)` (the implemented sign convention:
the left wheel spinning faster gives positive angular velocity, which the
integrator turns into a counter-clockwise heading change), each clipped to
[−maxSpeed, maxSpeed]. -/
theorem c2_amended_kinematic_conversion (c : RobotConstants) (l r : ℝ)
    (hm : 0 ≤ c.maxSpeed) :
    wheelVelocitiesToRobotVelocities c l r =
      (max (-c.maxSpeed) (min c.maxSpeed ((c.wheelRadius / 2) * (l + r))),
       max (-c.maxSpeed) (min c.maxSpeed ((c.wheelRadius / c.wheelBase) * (l - r)))) := by
  unfold wheelVelocitiesToRobotVelocities
  dsimp only
  rw [clip_eq_max_min _ _ hm, clip_eq_max_min _ _ hm]

/-- Witness for the amended C2 at concrete inputs. -/
theorem c2_amended_kinematic_conversion_witness :
    wheelVelocitiesToRobotVelocities c2consts 5 (-5) =
      (max (-c2consts.maxSpeed) (min c2consts.maxSpeed ((c2consts.wheelRadius / 2) * (5 + -5))),
       max (-c2consts.maxSpeed)
         (min c2consts.maxSpeed ((c2consts.wheelRadius / c2consts.wheelBase) * (5 - -5)))) :=
  c2_amended_kinematic_conversion c2consts 5 (-5) (by norm_num [c2consts])

/-! ### C8: broadcast fan-out. -/

/-- C8 counterexample: a registered observer with a full one-slot buffer is
removed from the observer set by a broadcast (its channel is closed and it
is deleted), while an observer with buffer space stays and receives the
message; the claim said the full observer merely loses the message but
remains registered. -/
theorem c8_counterexample :
    broadcastCase 9 [{ id := 0, cap := 1, buf := [7] }] = [] ∧
      broadcastCase 9 [{ id := 0, cap := 1, buf := [7] }, { id := 1, cap := 2, buf := [7] }] =
        [{ id := 1, cap := 2, buf := [7, 9] }] := by
  constructor <;> rfl

/-- C8 amended: broadcasting never blocks; each observer whose bounded slot
has space receives the message and stays registered, and every observer
whose slot is full is pruned from the set (channel closed and deleted), not
merely skipped. -/
theorem c8_amended_broadcast (m : ℕ) (clients : List Client) :
    broadcastCase m clients =
      (clients.filter fun cl => cl.buf.length < cl.cap).map
        (fun cl => { cl with buf := cl.buf ++ [m] }) := by
  induction clients with
  | nil => rfl
  | cons hd tl ih =>
    by_cases h : hd.buf.length < hd.cap
    · simp only [broadcastCase, List.filterMap_cons, if_pos h] at ih ⊢
      rw [List.filter_cons_of_pos (by simpa using h), List.map_cons, ih]
    · simp only [broadcastCase, List.filterMap_cons, if_neg h] at ih ⊢
      rw [List.filter_cons_of_neg (by simpa using h), ih]

/-! ### C1: the zero-slippage contract. -/

/-- An engine with slippageAmount = 0 and a symmetric 10 rad/s command,
built through the engine's own API. -/
def c1consts : RobotConstants :=
  { wheelBase := 0.3, wheelRadius := 0.05, maxSpeed := 2, maxAccel := 1
    slippageAmount := 0 }

/-- Reached from NewEngine by UpdateConstants and SetWheelCommand. -/
noncomputable def c1engine : Engine :=
  SetWheelCommand { leftVelocity := 10, rightVelocity := 10 }
    (UpdateConstants c1consts (NewEngine 0))

/-- C1: with slippageAmount = 0, one step with a Gaussian draw of 1.5 for
the linear-noise sample leaves ground-truth linearVel at 0.485 while the
odometry estimate reads 0.5 — `applySlippage` perturbs the velocities even
at zero slippage, violating the zero-slip contract. -/
theorem c1_zero_slippage_diverges :
    (step 1 0 1.5 0.5 c1engine).groundTruth.linearVel = 97 / 200 ∧
      (step 1 0 1.5 0.5 c1engine).odometry.linearVel = 1 / 2 ∧
      ((97 : ℝ) / 200) ≠ 1 / 2 := by
  refine ⟨?_, ?_, by norm_num⟩
  · norm_num [step, c1engine, c1consts, NewEngine, DefaultRobotConstants,
      zeroRobotState, zeroOdometry, SetWheelCommand, UpdateConstants,
      updateWheelVelocities, wheelVelocitiesToRobotVelocities,
      updateGroundTruthE, updateOdometryE, updateGroundTruth, updateOdometry,
      applySlippage, updatePosition, normalizeAngle]
  · norm_num [step, c1engine, c1consts, NewEngine, DefaultRobotConstants,
      zeroRobotState, zeroOdometry, SetWheelCommand, UpdateConstants,
      updateWheelVelocities, wheelVelocitiesToRobotVelocities,
      updateGroundTruthE, updateOdometryE, updateGroundTruth, updateOdometry,
      applySlippage, updatePosition, normalizeAngle]

/-! ### C7: the straight-line scenario.

Constants wheelBase = 0.3, wheelRadius = 0.05, slippageAmount = 0 with the
default maxSpeed = 2 and maxAccel = 1; command left = right = 10 rad/s;
120 steps of dt = 1/120. -/

/-- The straight-line scenario's constants. -/
def c7consts : RobotConstants :=
  { wheelBase := 0.3, wheelRadius := 0.05, maxSpeed := 2, maxAccel := 1
    slippageAmount := 0 }

/-- The scenario's start state, reached through the engine's API. -/
noncomputable def c7engine0 : Engine :=
  SetWheelCommand { leftVelocity := 10, rightVelocity := 10 }
    (UpdateConstants c7consts (NewEngine 0))

/-- The scenario's trajectory: `nu k` supplies the two Gaussian draws that
`applySlippage` consumes at step k. -/
noncomputable def c7traj (nu : ℕ → ℝ × ℝ) : ℕ → Engine
  | 0 => c7engine0
  | k + 1 => step (1 / 120) 0 (nu k).1 (nu k).2 (c7traj nu k)

/-- The benign noise stream: NormFloat64 draws of 0.5 make both noise terms
vanish, so ground truth and odometry coincide along the trajectory. -/
noncomputable def c7zeroNoise : ℕ → ℝ × ℝ := fun _ => (0.5, 0.5)

/-- One acceleration-limited wheel update of the scenario: target 10 rad/s,
per-step delta maxAccel/wheelRadius·dt = (1/0.05)/120 = 1/6 rad/s. -/
noncomputable def c7wheelUpd (v : ℝ) : ℝ :=
  if |(10 : ℝ) - v| > 1 / 6 then
    (if (10 : ℝ) - v > 0 then v + 1 / 6 else v - 1 / 6)
  else 10

/-- Closed form of the scenario's wheel velocity after k steps: ramp at
1/6 rad/s per step up to the commanded 10 rad/s. -/
noncomputable def c7vel (k : ℕ) : ℝ := min ((k : ℝ) / 6) 10

/-- Closed form of the scenario's odometry x after k steps. -/
noncomputable def c7x (k : ℕ) : ℝ :=
  if k ≤ 60 then (k : ℝ) * ((k : ℝ) + 1) / 28800
  else 61 / 480 + ((k : ℝ) - 60) / 240

lemma c7vel_nonneg (k : ℕ) : 0 ≤ c7vel k :=
  le_min (by positivity) (by norm_num)

lemma c7vel_le_ten (k : ℕ) : c7vel k ≤ 10 := min_le_right _ _

lemma c7wheelUpd_vel (k : ℕ) : c7wheelUpd (c7vel k) = c7vel (k + 1) := by
  rcases lt_trichotomy k 59 with hk | hk | hk
  · have hk58 : (k : ℝ) ≤ 58 := by exact_mod_cast Nat.lt_succ_iff.mp hk
    have hvk : c7vel k = (k : ℝ) / 6 := min_eq_left (by linarith)
    have hvk1 : c7vel (k + 1) = ((k : ℝ) + 1) / 6 := by
      rw [c7vel]
      push_cast
      exact min_eq_left (by linarith)
    rw [c7wheelUpd, hvk, hvk1]
    rw [if_pos (by rw [abs_of_pos (by linarith)]; linarith),
      if_pos (by linarith)]
    ring
  · subst hk
    have hvk : c7vel 59 = 59 / 6 := min_eq_left (by norm_num)
    have hvk1 : c7vel 60 = 10 := by
      rw [c7vel]
      norm_num
    rw [c7wheelUpd, hvk, hvk1]
    rw [if_neg (by rw [abs_of_pos (by norm_num)]; norm_num)]
  · have hk60 : (60 : ℝ) ≤ (k : ℝ) := by exact_mod_cast hk
    have hvk : c7vel k = 10 := min_eq_right (by linarith)
    have hvk1 : c7vel (k + 1) = 10 := by
      rw [c7vel]
      push_cast
      exact min_eq_right (by linarith)
    rw [c7wheelUpd, hvk, hvk1]
    norm_num

lemma c7x_succ (k : ℕ) : c7x k + c7vel (k + 1) / 20 * (1 / 120) = c7x (k + 1) := by
  rcases lt_trichotomy k 60 with hk | hk | hk
  · have hkr : (k : ℝ) ≤ 59 := by exact_mod_cast Nat.lt_succ_iff.mp hk
    have hv : c7vel (k + 1) = ((k : ℝ) + 1) / 6 := by
      rw [c7vel]
      push_cast
      exact min_eq_left (by linarith)
    have h1 : c7x k = (k : ℝ) * ((k : ℝ) + 1) / 28800 := if_pos hk.le
    have h2 : c7x (k + 1) = ((k : ℝ) + 1) * ((k : ℝ) + 1 + 1) / 28800 := by
      rw [c7x, if_pos (by omega : k + 1 ≤ 60)]
      push_cast
      ring
    rw [hv, h1, h2]
    ring
  · subst hk
    have hv : c7vel 61 = 10 := by
      rw [c7vel]
      norm_num
    have h1 : c7x 60 = 61 / 480 := by
      rw [c7x, if_pos le_rfl]
      norm_num
    have h2 : c7x 61 = 61 / 480 + 1 / 240 := by
      rw [c7x, if_neg (by omega)]
      norm_num
    rw [hv, h1, h2]
    ring
  · have hkr : (60 : ℝ) ≤ (k : ℝ) := by
      have : (60 : ℕ) ≤ k := hk.le
      exact_mod_cast this
    have hv : c7vel (k + 1) = 10 := by
      rw [c7vel]
      push_cast
      exact min_eq_right (by linarith)
    have h1 : c7x k = 61 / 480 + ((k : ℝ) - 60) / 240 := if_neg (by omega)
    have h2 : c7x (k + 1) = 61 / 480 + (((k : ℝ) + 1) - 60) / 240 := by
      rw [c7x, if_neg (by omega)]
      push_cast
      ring
    rw [hv, h1, h2]
    ring

lemma c7wheelUpd_bounds (v : ℝ) (h0 : 0 ≤ v) (h10 : v ≤ 10) :
    0 ≤ c7wheelUpd v ∧ c7wheelUpd v ≤ 10 := by
  unfold c7wheelUpd
  split_ifs with h1 h2
  · rw [abs_of_pos h2] at h1
    constructor <;> linarith
  · rw [abs_of_nonpos (by linarith)] at h1
    constructor <;> linarith
  · norm_num

lemma c7_updateWheel (v : ℝ) (gt : RobotState)
    (hl : gt.leftWheel.velocity = v) (hr : gt.rightWheel.velocity = v) :
    updateWheelVelocities c7consts { leftVelocity := 10, rightVelocity := 10 }
        (1 / 120) gt =
      { gt with leftWheel := { gt.leftWheel with velocity := c7wheelUpd v }
                rightWheel := { gt.rightWheel with velocity := c7wheelUpd v } } := by
  unfold updateWheelVelocities c7wheelUpd
  dsimp only
  rw [hl, hr]
  have hd : c7consts.maxAccel / c7consts.wheelRadius * (1 / 120) = 1 / 6 := by
    norm_num [c7consts]
  rw [hd]

lemma c7_conversion (v : ℝ) (h0 : 0 ≤ v) (h10 : v ≤ 10) :
    wheelVelocitiesToRobotVelocities c7consts v v = (v / 20, 0) := by
  unfold wheelVelocitiesToRobotVelocities
  dsimp only
  have hlin : c7consts.wheelRadius / 2 * (v + v) = v / 20 := by
    rw [show c7consts.wheelRadius = 0.05 from rfl]
    ring
  have hang : c7consts.wheelRadius / c7consts.wheelBase * (v - v) = 0 := by
    ring
  rw [hlin, hang]
  have hms : c7consts.maxSpeed = 2 := rfl
  rw [hms]
  rw [if_neg (by linarith), if_neg (by linarith), if_neg (by norm_num),
    if_neg (by norm_num)]

lemma c7_updateGroundTruth (g1 g2 lin : ℝ) (gt : RobotState)
    (ht : gt.theta = 0) :
    updateGroundTruth c7consts lin 0 (1 / 120) g1 g2 gt =
      { gt with
          linearVel := lin * (1 - (g1 - 0.5) * 0.1 * 0.3)
          angularVel := 0
          x := gt.x + lin * (1 - (g1 - 0.5) * 0.1 * 0.3) * (1 / 120)
          theta := 0
          leftWheel := { gt.leftWheel with
                           rotation := gt.leftWheel.rotation +
                             gt.leftWheel.velocity * (1 / 120) }
          rightWheel := { gt.rightWheel with
                            rotation := gt.rightWheel.rotation +
                              gt.rightWheel.velocity * (1 / 120) } } := by
  unfold updateGroundTruth applySlippage updatePosition
  dsimp only
  rw [show c7consts.slippageAmount = 0 from rfl, ht]
  rw [if_pos (by norm_num : |(0 : ℝ) * (1 - (0 + (g2 - 0.5) * 0.05) * 0.03)| < 1e-6)]
  dsimp only
  rw [normalizeAngle_zero]
  simp only [Real.cos_zero, Real.sin_zero]
  congr 1 <;> ring

lemma c7_updateOdometry (w : ℝ) (h0 : 0 ≤ w) (h10 : w ≤ 10)
    (od : OdometryEstimate) (ht : od.theta = 0) :
    updateOdometry c7consts w w (1 / 120) od =
      { od with
          x := od.x + w / 20 * (1 / 120)
          theta := 0
          linearVel := w / 20
          angularVel := 0
          leftWheel := { velocity := w
                         rotation := od.leftWheel.rotation + w * (1 / 120) }
          rightWheel := { velocity := w
                          rotation := od.rightWheel.rotation + w * (1 / 120) } } := by
  unfold updateOdometry
  dsimp only
  rw [c7_conversion w h0 h10]
  dsimp only
  rw [ht]
  rw [if_pos (by norm_num : |(0 : ℝ)| < 1e-6)]
  dsimp only
  rw [normalizeAngle_zero]
  simp only [Real.cos_zero, Real.sin_zero]
  congr 1 <;> ring

lemma c7_step (g1 g2 v : ℝ) (e : Engine)
    (hc : e.constants = c7consts)
    (hcmd : e.wheelCommand = { leftVelocity := 10, rightVelocity := 10 })
    (hl : e.groundTruth.leftWheel.velocity = v)
    (hr : e.groundTruth.rightWheel.velocity = v)
    (h0 : 0 ≤ v) (h10 : v ≤ 10)
    (hgt : e.groundTruth.theta = 0) (hod : e.odometry.theta = 0) :
    step (1 / 120) 0 g1 g2 e =
      { groundTruth :=
          { x := e.groundTruth.x +
              c7wheelUpd v / 20 * (1 - (g1 - 0.5) * 0.1 * 0.3) * (1 / 120)
            y := e.groundTruth.y
            theta := 0
            linearVel := c7wheelUpd v / 20 * (1 - (g1 - 0.5) * 0.1 * 0.3)
            angularVel := 0
            leftWheel := { velocity := c7wheelUpd v
                           rotation := e.groundTruth.leftWheel.rotation +
                             c7wheelUpd v * (1 / 120) }
            rightWheel := { velocity := c7wheelUpd v
                            rotation := e.groundTruth.rightWheel.rotation +
                              c7wheelUpd v * (1 / 120) }
            timestamp := 0 }
        odometry :=
          { x := e.odometry.x + c7wheelUpd v / 20 * (1 / 120)
            y := e.odometry.y
            theta := 0
            linearVel := c7wheelUpd v / 20
            angularVel := 0
            leftWheel := { velocity := c7wheelUpd v
                           rotation := e.odometry.leftWheel.rotation +
                             c7wheelUpd v * (1 / 120) }
            rightWheel := { velocity := c7wheelUpd v
                            rotation := e.odometry.rightWheel.rotation +
                              c7wheelUpd v * (1 / 120) } }
        constants := c7consts
        lastUpdate := 0
        running := e.running
        wheelCommand := { leftVelocity := 10, rightVelocity := 10 } } := by
  obtain ⟨hw0, hw10⟩ := c7wheelUpd_bounds v h0 h10
  unfold step
  rw [if_neg (by norm_num : ¬ (1 : ℝ) / 120 ≤ 0)]
  dsimp only [updateGroundTruthE, updateOdometryE]
  rw [hc, hcmd]
  rw [c7_updateWheel v e.groundTruth hl hr]
  dsimp only
  rw [c7_conversion (c7wheelUpd v) hw0 hw10]
  dsimp only
  rw [c7_updateGroundTruth g1 g2 (c7wheelUpd v / 20)]
  · dsimp only
    rw [c7_updateOdometry (c7wheelUpd v) hw0 hw10 e.odometry hod]
  · exact hgt

lemma c7_invariant (nu : ℕ → ℝ × ℝ) (k : ℕ) :
    (c7traj nu k).constants = c7consts ∧
      (c7traj nu k).wheelCommand = { leftVelocity := 10, rightVelocity := 10 } ∧
      (c7traj nu k).groundTruth.leftWheel.velocity = c7vel k ∧
      (c7traj nu k).groundTruth.rightWheel.velocity = c7vel k ∧
      (c7traj nu k).groundTruth.theta = 0 ∧
      (c7traj nu k).groundTruth.y = 0 ∧
      (c7traj nu k).groundTruth.angularVel = 0 ∧
      (c7traj nu k).odometry.theta = 0 ∧
      (c7traj nu k).odometry.y = 0 ∧
      (c7traj nu k).odometry.angularVel = 0 ∧
      (c7traj nu k).odometry.x = c7x k := by
  induction k with
  | zero =>
      refine ⟨rfl, rfl, ?_, ?_, rfl, rfl, rfl, rfl, rfl, rfl, ?_⟩ <;>
        simp [c7traj, c7engine0, SetWheelCommand, UpdateConstants, NewEngine,
          zeroRobotState, zeroOdometry, c7vel, c7x]
  | succ k ih =>
      obtain ⟨hc, hcmd, hl, hr, hgt, hgy, hga, hot, hoy, hoa, hox⟩ := ih
      have htraj :
          c7traj nu (k + 1) = step (1 / 120) 0 (nu k).1 (nu k).2 (c7traj nu k) := rfl
      rw [htraj, c7_step (nu k).1 (nu k).2 (c7vel k) (c7traj nu k) hc hcmd hl hr
        (c7vel_nonneg k) (c7vel_le_ten k) hgt hot]
      refine ⟨rfl, rfl, ?_, ?_, rfl, hgy, rfl, rfl, hoy, rfl, ?_⟩
      · exact c7wheelUpd_vel k
      · exact c7wheelUpd_vel k
      · show (c7traj nu k).odometry.x + c7wheelUpd (c7vel k) / 20 * (1 / 120) =
          c7x (k + 1)
        rw [hox, c7wheelUpd_vel k]
        exact c7x_succ k

lemma c7_groundTruth_x_eq (k : ℕ) :
    (c7traj c7zeroNoise k).groundTruth.x = (c7traj c7zeroNoise k).odometry.x := by
  induction k with
  | zero =>
      simp [c7traj, c7engine0, SetWheelCommand, UpdateConstants, NewEngine,
        zeroRobotState, zeroOdometry]
  | succ k ih =>
      obtain ⟨hc, hcmd, hl, hr, hgt, hgy, hga, hot, hoy, hoa, hox⟩ :=
        c7_invariant c7zeroNoise k
      have htraj : c7traj c7zeroNoise (k + 1) =
          step (1 / 120) 0 (0.5 : ℝ) (0.5 : ℝ) (c7traj c7zeroNoise k) := rfl
      rw [htraj, c7_step (0.5 : ℝ) (0.5 : ℝ) (c7vel k) (c7traj c7zeroNoise k) hc hcmd
        hl hr (c7vel_nonneg k) (c7vel_le_ten k) hgt hot]
      dsimp only
      rw [ih]
      norm_num

/-- C7 counterexample: running the straight-line scenario (default
maxSpeed = 2, maxAccel = 1), with benign noise so that even the defective
slip model leaves ground truth and odometry identical, 120 steps of
dt = 1/120 advance x to 181/480 ≈ 0.3771 m — not the claimed 0.5 m, because
the acceleration limit keeps the wheels below 10 rad/s for the first 0.5 s. -/
theorem c7_counterexample :
    (c7traj c7zeroNoise 120).odometry.x = 181 / 480 ∧
      (c7traj c7zeroNoise 120).groundTruth.x = 181 / 480 ∧
      ((181 : ℝ) / 480) ≠ 1 / 2 := by
  have hox := (c7_invariant c7zeroNoise 120).2.2.2.2.2.2.2.2.2.2
  have hx : c7x 120 = 181 / 480 := by
    rw [c7x, if_neg (by omega)]
    norm_num
  exact ⟨by rw [hox, hx], by rw [c7_groundTruth_x_eq, hox, hx], by norm_num⟩

/-- C7 amended: in the straight-line scenario both angular velocities are
exactly 0 and both y coordinates stay 0 at every step for every noise
stream; after 120 steps the odometry x is exactly 181/480 m (the
acceleration ramp reaches the commanded 10 rad/s only after 0.5 s), and the
ground-truth x agrees when the injected Gaussian draws are the benign 0.5
(any other draw perturbs ground truth even though slippageAmount = 0). -/
theorem c7_amended_straight_line (nu : ℕ → ℝ × ℝ) :
    (∀ k, (c7traj nu k).groundTruth.angularVel = 0 ∧
        (c7traj nu k).odometry.angularVel = 0 ∧
        (c7traj nu k).groundTruth.y = 0 ∧
        (c7traj nu k).odometry.y = 0) ∧
      (c7traj nu 120).odometry.x = 181 / 480 ∧
      (c7traj c7zeroNoise 120).groundTruth.x = 181 / 480 := by
  have hx : c7x 120 = 181 / 480 := by
    rw [c7x, if_neg (by omega)]
    norm_num
  refine ⟨fun k => ?_, ?_, ?_⟩
  · obtain ⟨_, _, _, _, _, hgy, hga, _, hoy, hoa, _⟩ := c7_invariant nu k
    exact ⟨hga, hoa, hgy, hoy⟩
  · rw [(c7_invariant nu 120).2.2.2.2.2.2.2.2.2.2, hx]
  · rw [c7_groundTruth_x_eq,
      (c7_invariant c7zeroNoise 120).2.2.2.2.2.2.2.2.2.2, hx]

end RobotVis
